import Mathlib

/-!
Verification of the permission-resolution and token-revocation subsystem of
the NexusTask backend (`services/permissions.py` and `core/token_blacklist.py`).

The relational state is embedded as lists of rows; the SQLAlchemy keyed
lookups (`Project.query.get`, `ProjectMember.query.filter_by(...).first()`,
`Task.query.get`) become `List.find?` over those rows.  The permission
functions are translated branch for branch from the Python source.  A second
family of definitions (suffix `E`) makes datastore fallibility explicit:
every query returns `Except DBErr _`, and the `try/except` wrapper of each
public operation becomes an explicit match on the error case.
-/

set_option autoImplicit false

namespace NexusTask

/-- A row of the `projects` table, restricted to the columns the permission
subsystem reads: primary key and `owner_id`. -/
structure Project where
  id : Nat
  owner_id : Nat
  deriving Repr, DecidableEq

/-- A row of the `project_members` association table: which user participates
in which project, with which role (`"admin"` or `"member"`). -/
structure ProjectMember where
  project_id : Nat
  user_id : Nat
  role : String
  deriving Repr, DecidableEq

/-- A row of the `tasks` table, restricted to the columns the permission
subsystem reads; `assigned_to` is nullable. -/
structure Task where
  id : Nat
  project_id : Nat
  created_by : Nat
  assigned_to : Option Nat
  deriving Repr, DecidableEq

/-- The slice of the relational store that the permission functions query. -/
structure DB where
  projects : List Project
  members : List ProjectMember
  tasks : List Task
  deriving Repr

/-- `Project.query.get(project_id)`: primary-key lookup. -/
def DB.getProject (db : DB) (project_id : Nat) : Option Project :=
  db.projects.find? (fun p => p.id == project_id)

/-- `ProjectMember.query.filter_by(project_id=..., user_id=...).first()`. -/
def DB.getMember (db : DB) (project_id user_id : Nat) : Option ProjectMember :=
  db.members.find? (fun m => m.project_id == project_id && m.user_id == user_id)

/-- `ProjectMember.query.filter_by(project_id=..., user_id=..., role='admin').first()`. -/
def DB.getAdminMember (db : DB) (project_id user_id : Nat) : Option ProjectMember :=
  db.members.find?
    (fun m => m.project_id == project_id && m.user_id == user_id && m.role == "admin")

/-- `Task.query.get(task_id)`: primary-key lookup. -/
def DB.getTask (db : DB) (task_id : Nat) : Option Task :=
  db.tasks.find? (fun t => t.id == task_id)

/-- `check_project_access` from `services/permissions.py`: load the project
(absent collapses to no access); owner wins; otherwise consult the
membership table; otherwise deny. -/
def check_project_access (db : DB) (project_id user_id : Nat) :
    Bool × Option Project × Option String :=
  match db.getProject project_id with
  | none => (false, none, none)
  | some project =>
    if project.owner_id = user_id then
      (true, some project, some "owner")
    else
      match db.getMember project_id user_id with
      | some member => (true, some project, some member.role)
      | none => (false, none, none)

/-- The four-branch reference definition of `resolve_project_access`, written
from the spec's wording (section 4.1): (1) load project, absent gives
`(false, none, none)`; (2) owner gives `(true, project, "owner")`; (3) a
ProjectMember row gives `(true, project, member.role)`; (4) otherwise
`(false, none, none)`. -/
def resolve_project_access_spec (db : DB) (project_id user_id : Nat) :
    Bool × Option Project × Option String :=
  match db.getProject project_id with
  | none => (false, none, none)
  | some project =>
    if project.owner_id = user_id then
      (true, some project, some "owner")
    else
      match db.getMember project_id user_id with
      | some member => (true, some project, some member.role)
      | none => (false, none, none)

/-- `check_project_admin`: project absent gives `false`; the owner is
implicitly an admin; otherwise only an explicit `role='admin'` membership row
yields `true`. -/
def check_project_admin (db : DB) (project_id user_id : Nat) : Bool :=
  match db.getProject project_id with
  | none => false
  | some project =>
    if project.owner_id = user_id then
      true
    else
      (db.getAdminMember project_id user_id).isSome

/-- `check_project_member`: the boolean projection of `check_project_access`. -/
def check_project_member (db : DB) (project_id user_id : Nat) : Bool :=
  (check_project_access db project_id user_id).1

/-- `check_task_access`: load the task (absent collapses to no access), then
delegate entirely to `check_project_access` on the task's project, returning
the task object in place of the project object. -/
def check_task_access (db : DB) (task_id user_id : Nat) :
    Bool × Option Task × Option String :=
  match db.getTask task_id with
  | none => (false, none, none)
  | some task =>
    match check_project_access db task.project_id user_id with
    | (has_access, _, role) =>
      if has_access then (true, some task, role)
      else (false, none, none)

/-- `can_modify_task`: the task's creator or assignee may modify it; failing
that, a project admin (or owner) may; everyone else is denied, as is every
call on a nonexistent task. -/
def can_modify_task (db : DB) (task_id user_id : Nat) : Bool × Option Task :=
  match db.getTask task_id with
  | none => (false, none)
  | some task =>
    if task.created_by = user_id ∨ task.assigned_to = some user_id then
      (true, some task)
    else if check_project_admin db task.project_id user_id then
      (true, some task)
    else
      (false, none)

/-- The error raised by a failing datastore query. -/
inductive DBErr where
  | failure : DBErr
  deriving Repr, DecidableEq

/-- A fallible view of the datastore: each query either returns its rows or
raises.  This makes the `try/except` boundary of every public permission
operation explicit in the embedding. -/
structure ExcDB where
  getProject : Nat → Except DBErr (Option Project)
  getMember : Nat → Nat → Except DBErr (Option ProjectMember)
  getAdminMember : Nat → Nat → Except DBErr (Option ProjectMember)
  getTask : Nat → Except DBErr (Option Task)

/-- `check_project_access` over the fallible datastore: an exception raised
by either query is caught by the surrounding `try/except` and converted to
the fallback triple `(false, none, none)`.  The function is total, so the
exception never reaches the caller, and it touches no state. -/
def check_project_accessE (db : ExcDB) (project_id user_id : Nat) :
    Bool × Option Project × Option String :=
  match db.getProject project_id with
  | .error _ => (false, none, none)
  | .ok none => (false, none, none)
  | .ok (some project) =>
    if project.owner_id = user_id then
      (true, some project, some "owner")
    else
      match db.getMember project_id user_id with
      | .error _ => (false, none, none)
      | .ok (some member) => (true, some project, some member.role)
      | .ok none => (false, none, none)

/-- `check_project_admin` over the fallible datastore: a raised query is
caught and converted to `false`. -/
def check_project_adminE (db : ExcDB) (project_id user_id : Nat) : Bool :=
  match db.getProject project_id with
  | .error _ => false
  | .ok none => false
  | .ok (some project) =>
    if project.owner_id = user_id then
      true
    else
      match db.getAdminMember project_id user_id with
      | .error _ => false
      | .ok m => m.isSome

/-- `check_task_access` over the fallible datastore: a raised task query is
caught and converted to `(false, none, none)`; the delegated project check
catches its own exceptions internally. -/
def check_task_accessE (db : ExcDB) (task_id user_id : Nat) :
    Bool × Option Task × Option String :=
  match db.getTask task_id with
  | .error _ => (false, none, none)
  | .ok none => (false, none, none)
  | .ok (some task) =>
    match check_project_accessE db task.project_id user_id with
    | (has_access, _, role) =>
      if has_access then (true, some task, role)
      else (false, none, none)

/-- `can_modify_task` over the fallible datastore: a raised task query is
caught and converted to `(false, none)`; the admin check catches its own
exceptions internally and answers `false`. -/
def can_modify_taskE (db : ExcDB) (task_id user_id : Nat) : Bool × Option Task :=
  match db.getTask task_id with
  | .error _ => (false, none)
  | .ok none => (false, none)
  | .ok (some task) =>
    if task.created_by = user_id ∨ task.assigned_to = some user_id then
      (true, some task)
    else if check_project_adminE db task.project_id user_id then
      (true, some task)
    else
      (false, none)

/-- The in-process revocation map of `core/token_blacklist.py`
(`TokenBlacklist._memory_store`): jti keys mapped to expiry timestamps,
embedded as an association list with replace-on-insert semantics.
Timestamps are seconds. -/
abbrev MemStore := List (String × Nat)

/-- Outcome of the external TTL store during `add`: the client handle is
absent, the `setex` write succeeds, or the write raises. -/
inductive AddOutcome where
  | noClient : AddOutcome
  | setexOk : AddOutcome
  | setexErr : AddOutcome
  deriving Repr, DecidableEq

/-- `true` exactly on the outcomes that make `add` fall through to the
in-process map. -/
def AddOutcome.memoryPath : AddOutcome → Bool
  | .setexOk => false
  | _ => true

/-- Outcome of the external TTL store during `is_blacklisted`: the client
handle is absent, the existence check answers, or the check raises. -/
inductive ReadOutcome where
  | noClient : ReadOutcome
  | found : Bool → ReadOutcome
  | readErr : ReadOutcome
  deriving Repr, DecidableEq

/-- `true` exactly on the outcomes that make `is_blacklisted` fall through
to the in-process map. -/
def ReadOutcome.memoryPath : ReadOutcome → Bool
  | .found _ => false
  | _ => true

/-- `del store[jti]`, and also the erase half of dict assignment. -/
def storeDelete (jti : String) (s : MemStore) : MemStore :=
  s.filter (fun e => e.1 != jti)

/-- `TokenBlacklist._cleanup_expired`: drop every entry whose expiry has
passed (`expires_at <= now`), two-phase in the source, a filter here. -/
def _cleanup_expired (now : Nat) (s : MemStore) : MemStore :=
  s.filter (fun e => !(decide (e.2 ≤ now)))

/-- `TokenBlacklist.add`: compute `expires_at = now + ttl` (default 24h =
86400s); a successful external `setex` short-circuits with `true`; an absent
client or a raising write falls through to the in-process map, where the
entry is recorded, expired entries are cleaned up, and `true` is returned. -/
def TokenBlacklist.add (redis : AddOutcome) (now : Nat) (store : MemStore)
    (jti : String) (expires_delta : Option Nat) : Bool × MemStore :=
  let delta := expires_delta.getD 86400
  let expires_at := now + delta
  match redis with
  | .setexOk => (true, store)
  | .noClient | .setexErr =>
    (true, _cleanup_expired now ((jti, expires_at) :: storeDelete jti store))

/-- `TokenBlacklist.is_blacklisted`: a reachable external store answers the
existence check; otherwise consult the in-process map, where a hit is valid
only while `expires_at > now` and an expired hit is lazily deleted and
reported as a miss. -/
def TokenBlacklist.is_blacklisted (redis : ReadOutcome) (now : Nat)
    (store : MemStore) (jti : String) : Bool × MemStore :=
  match redis with
  | .found b => (b, store)
  | .noClient | .readErr =>
    match store.lookup jti with
    | some expires_at =>
      if now < expires_at then (true, store)
      else (false, storeDelete jti store)
    | none => (false, store)

/-- `check_if_token_revoked`: read `payload.get("jti")`; a payload without a
jti is treated as not revoked and the store is not consulted; otherwise
delegate to `TokenBlacklist.is_blacklisted`. -/
def check_if_token_revoked (redis : ReadOutcome) (now : Nat) (store : MemStore)
    (payload : List (String × String)) : Bool × MemStore :=
  match payload.lookup "jti" with
  | none => (false, store)
  | some jti => TokenBlacklist.is_blacklisted redis now store jti

end NexusTask

namespace NexusTask

/-- C1: `check_project_access` coincides with the spec's four-branch
reference definition on every state, and in particular the owner test
precedes the membership lookup, so when the project's owner also appears in
the membership table the reported role is still `"owner"`. -/
theorem check_project_access_matches_spec (db : DB) (project_id user_id : Nat) :
    check_project_access db project_id user_id
        = resolve_project_access_spec db project_id user_id
    ∧ (∀ p, db.getProject project_id = some p → p.owner_id = user_id →
        check_project_access db project_id user_id = (true, some p, some "owner")) := by
  constructor
  · rfl
  · intro p hp howner
    simp [check_project_access, hp, howner]

/-- Helper: `check_project_access` returns a non-`none` project exactly when
the flag is `true`, and likewise for the role. -/
theorem project_access_shape (db : DB) (project_id user_id : Nat) :
    (check_project_access db project_id user_id).1
        = (check_project_access db project_id user_id).2.1.isSome
    ∧ (check_project_access db project_id user_id).1
        = (check_project_access db project_id user_id).2.2.isSome := by
  unfold check_project_access
  cases h : db.getProject project_id with
  | none => simp
  | some p =>
    by_cases ho : p.owner_id = user_id
    · simp [ho]
    · cases hm : db.getMember project_id user_id with
      | none => simp [ho, hm]
      | some m => simp [ho, hm]

/-- Helper: when the flag of `check_project_access` is `false` the whole
result is the fallback triple. -/
theorem project_access_false (db : DB) (project_id user_id : Nat)
    (h : (check_project_access db project_id user_id).1 = false) :
    check_project_access db project_id user_id = (false, none, none) := by
  unfold check_project_access at h ⊢
  cases hp : db.getProject project_id with
  | none => simp
  | some p =>
    rw [hp] at h
    by_cases ho : p.owner_id = user_id
    · simp [ho] at h
    · cases hm : db.getMember project_id user_id with
      | none => simp [ho, hm]
      | some m => simp [ho, hm] at h

/-- Witness for C1 on a concrete state in which the owner of project 7 also
has a `role="member"` membership row: the result role is still `"owner"`. -/
theorem check_project_access_matches_spec_witness :
    (DB.getProject ⟨[⟨7, 1⟩], [⟨7, 1, "member"⟩], []⟩ 7 = some ⟨7, 1⟩
      ∧ Project.owner_id ⟨7, 1⟩ = 1)
    ∧ check_project_access ⟨[⟨7, 1⟩], [⟨7, 1, "member"⟩], []⟩ 7 1
        = (true, some ⟨7, 1⟩, some "owner") :=
  ⟨⟨rfl, rfl⟩,
    (check_project_access_matches_spec ⟨[⟨7, 1⟩], [⟨7, 1, "member"⟩], []⟩ 7 1).2
      ⟨7, 1⟩ rfl rfl⟩

/-- C2: `check_project_admin` is `true` exactly when the project exists and
the user is either its owner or the subject of an explicit `role="admin"`
membership row; in particular it is `false` for a `role="member"` row, for
non-members, and for a nonexistent project. -/
theorem check_project_admin_iff (db : DB) (project_id user_id : Nat) :
    check_project_admin db project_id user_id = true ↔
      ∃ p, db.getProject project_id = some p ∧
        (p.owner_id = user_id ∨
          ∃ m ∈ db.members,
            m.project_id = project_id ∧ m.user_id = user_id ∧ m.role = "admin") := by
  unfold check_project_admin
  cases hp : db.getProject project_id with
  | none => simp
  | some p =>
    by_cases ho : p.owner_id = user_id
    · simp only [ho, if_true, Option.some.injEq]
      constructor
      · intro _; exact ⟨p, rfl, Or.inl ho⟩
      · intro _; trivial
    · simp only [ho, if_false, Option.some.injEq, DB.getAdminMember,
        Option.isSome_iff_exists]
      constructor
      · rintro ⟨m, hm⟩
        have := List.find?_some hm
        have hmem := List.mem_of_find?_eq_some hm
        simp only [Bool.and_eq_true, beq_iff_eq] at this
        exact ⟨p, rfl, Or.inr ⟨m, hmem, this.1.1, this.1.2, this.2⟩⟩
      · rintro ⟨p2, hp2, h | ⟨m, hmem, h1, h2, h3⟩⟩
        · cases hp2; exact absurd h ho
        · have : (db.members.find?
              (fun m => m.project_id == project_id && m.user_id == user_id
                && m.role == "admin")).isSome := by
            rw [List.find?_isSome]
            exact ⟨m, hmem, by simp [h1, h2, h3]⟩
          rw [Option.isSome_iff_exists] at this
          exact this

/-- Witness for C2 on a concrete state: user 3 holds an admin row of
project 7, so `check_project_admin` answers `true`. -/
theorem check_project_admin_iff_witness :
    check_project_admin ⟨[⟨7, 1⟩], [⟨7, 3, "admin"⟩], []⟩ 7 3 = true :=
  (check_project_admin_iff ⟨[⟨7, 1⟩], [⟨7, 3, "admin"⟩], []⟩ 7 3).mpr
    ⟨⟨7, 1⟩, rfl, Or.inr ⟨⟨7, 3, "admin"⟩, by simp, rfl, rfl, rfl⟩⟩

/-- C3: `can_modify_task` allows exactly the task's creator, its assignee,
and the project admins (owner included); every other call — a plain project
member who is neither creator nor assignee, or a nonexistent task — yields
the fallback `(false, none)`. -/
theorem can_modify_task_iff (db : DB) (task_id user_id : Nat) :
    ((can_modify_task db task_id user_id).1 = true ↔
      ∃ t, db.getTask task_id = some t ∧
        (t.created_by = user_id ∨ t.assigned_to = some user_id ∨
          check_project_admin db t.project_id user_id = true))
    ∧ ((can_modify_task db task_id user_id).1 = false →
        can_modify_task db task_id user_id = (false, none)) := by
  unfold can_modify_task
  cases ht : db.getTask task_id with
  | none => simp
  | some t =>
    by_cases hd : t.created_by = user_id ∨ t.assigned_to = some user_id
    · constructor
      · simp only [hd, if_true]
        constructor
        · intro _
          exact ⟨t, rfl, hd.elim Or.inl (fun h => Or.inr (Or.inl h))⟩
        · intro _; trivial
      · simp [hd]
    · by_cases ha : check_project_admin db t.project_id user_id
      · constructor
        · simp only [hd, if_false, ha, if_true]
          constructor
          · intro _; exact ⟨t, rfl, Or.inr (Or.inr ha)⟩
          · intro _; trivial
        · simp [hd, ha]
      · constructor
        · simp only [hd, if_false, ha, if_false]
          constructor
          · intro h; cases h
          · rintro ⟨t2, ht2, h⟩
            cases ht2
            rcases h with h | h | h
            · exact absurd (Or.inl h) hd
            · exact absurd (Or.inr h) hd
            · exact absurd h ha
        · intro _
          simp [hd, ha]

/-- Witness for C3: task 42 of project 7 was created by user 2, so user 2
may modify it; the flag is `true` at this concrete input. -/
theorem can_modify_task_iff_witness :
    (can_modify_task ⟨[⟨7, 1⟩], [], [⟨42, 7, 2, none⟩]⟩ 42 2).1 = true :=
  (can_modify_task_iff ⟨[⟨7, 1⟩], [], [⟨42, 7, 2, none⟩]⟩ 42 2).1.mpr
    ⟨⟨42, 7, 2, none⟩, rfl, Or.inl rfl⟩

/-- C4: `check_task_access` on an existing task agrees with
`check_project_access` on the task's project in its flag and its role
component, and returns the task object (in place of the project) exactly
when access is granted; a nonexistent task yields `(false, none, none)`. -/
theorem check_task_access_delegates (db : DB) (task_id user_id : Nat) :
    (∀ t, db.getTask task_id = some t →
        ((check_task_access db task_id user_id).1
            = (check_project_access db t.project_id user_id).1
        ∧ (check_task_access db task_id user_id).2.2
            = (check_project_access db t.project_id user_id).2.2
        ∧ (check_task_access db task_id user_id).2.1
            = (if (check_project_access db t.project_id user_id).1 then some t else none)))
    ∧ (db.getTask task_id = none →
        check_task_access db task_id user_id = (false, none, none)) := by
  constructor
  · intro t ht
    unfold check_task_access
    rw [ht]
    rcases hacc : check_project_access db t.project_id user_id with ⟨a, ob, r⟩
    simp only [hacc]
    cases a
    · have hfall := project_access_false db t.project_id user_id (by rw [hacc])
      rw [hacc] at hfall
      simp only [Prod.mk.injEq] at hfall
      simp [hfall.2.2]
    · simp
  · intro ht
    unfold check_task_access
    rw [ht]

/-- Witness for C4: user 2 is a member of project 7, so task access on task
42 agrees with project access on project 7 at this concrete state. -/
theorem check_task_access_delegates_witness :
    (check_task_access ⟨[⟨7, 1⟩], [⟨7, 2, "member"⟩], [⟨42, 7, 2, none⟩]⟩ 42 2).1
        = (check_project_access ⟨[⟨7, 1⟩], [⟨7, 2, "member"⟩], [⟨42, 7, 2, none⟩]⟩ 7 2).1 :=
  ((check_task_access_delegates ⟨[⟨7, 1⟩], [⟨7, 2, "member"⟩], [⟨42, 7, 2, none⟩]⟩ 42 2).1
    ⟨42, 7, 2, none⟩ rfl).1

/-- C9: every access-check result is shape-coherent — the boolean flag is
`true` exactly when the returned object is non-`none`, and (for the triple
results) exactly when the returned role is non-`none`. -/
theorem result_shape_coherence (db : DB) (project_id task_id user_id : Nat) :
    ((check_project_access db project_id user_id).1
        = (check_project_access db project_id user_id).2.1.isSome)
    ∧ ((check_project_access db project_id user_id).1
        = (check_project_access db project_id user_id).2.2.isSome)
    ∧ ((check_task_access db task_id user_id).1
        = (check_task_access db task_id user_id).2.1.isSome)
    ∧ ((check_task_access db task_id user_id).1
        = (check_task_access db task_id user_id).2.2.isSome)
    ∧ ((can_modify_task db task_id user_id).1
        = (can_modify_task db task_id user_id).2.isSome) := by
  refine ⟨(project_access_shape db project_id user_id).1,
    (project_access_shape db project_id user_id).2, ?_, ?_, ?_⟩
  · unfold check_task_access
    cases ht : db.getTask task_id with
    | none => simp
    | some t =>
      rcases hacc : check_project_access db t.project_id user_id with ⟨a, ob, r⟩
      cases a
      · simp [hacc]
      · simp [hacc]
  · unfold check_task_access
    cases ht : db.getTask task_id with
    | none => simp
    | some t =>
      rcases hacc : check_project_access db t.project_id user_id with ⟨a, ob, r⟩
      cases a
      · simp [hacc]
      · have h1 := (project_access_shape db t.project_id user_id).2
        rw [hacc] at h1
        simp only [hacc]
        simp only at h1
        simpa using h1
  · unfold can_modify_task
    cases ht : db.getTask task_id with
    | none => simp
    | some t =>
      by_cases hd : t.created_by = user_id ∨ t.assigned_to = some user_id
      · simp [hd]
      · by_cases ha : check_project_admin db t.project_id user_id
        · simp [hd, ha]
        · simp [hd, ha]

/-- C5: every access-check operation fails closed.  Whichever datastore
query of an operation raises, the operation returns its documented fallback
value (`(false, none, none)`, `false`, or `(false, none)`); the embedding is
total and stateless, so the exception is not propagated and no state
changes. -/
theorem access_checks_fail_closed (db : ExcDB) (project_id task_id user_id : Nat) :
    (∀ e, db.getProject project_id = .error e →
        check_project_accessE db project_id user_id = (false, none, none)
        ∧ check_project_adminE db project_id user_id = false)
    ∧ (∀ e p, db.getProject project_id = .ok (some p) → p.owner_id ≠ user_id →
        db.getMember project_id user_id = .error e →
        check_project_accessE db project_id user_id = (false, none, none))
    ∧ (∀ e p, db.getProject project_id = .ok (some p) → p.owner_id ≠ user_id →
        db.getAdminMember project_id user_id = .error e →
        check_project_adminE db project_id user_id = false)
    ∧ (∀ e, db.getTask task_id = .error e →
        check_task_accessE db task_id user_id = (false, none, none)
        ∧ can_modify_taskE db task_id user_id = (false, none)) := by
  refine ⟨?_, ?_, ?_, ?_⟩
  · intro e he
    constructor
    · unfold check_project_accessE
      rw [he]
    · unfold check_project_adminE
      rw [he]
  · intro e p hp ho hm
    unfold check_project_accessE
    rw [hp, hm]
    simp [ho]
  · intro e p hp ho hm
    unfold check_project_adminE
    rw [hp, hm]
    simp [ho]
  · intro e he
    constructor
    · unfold check_task_accessE
      rw [he]
    · unfold can_modify_taskE
      rw [he]

/-- Witness for C5 on the concrete datastore whose every query raises:
`check_project_access` answers the fallback triple. -/
theorem access_checks_fail_closed_witness :
    ((ExcDB.mk (fun _ => .error .failure) (fun _ _ => .error .failure)
        (fun _ _ => .error .failure) (fun _ => .error .failure)).getProject 7
      = .error .failure)
    ∧ check_project_accessE
        (ExcDB.mk (fun _ => .error .failure) (fun _ _ => .error .failure)
          (fun _ _ => .error .failure) (fun _ => .error .failure)) 7 1
      = (false, none, none) :=
  ⟨rfl,
    ((access_checks_fail_closed
        (ExcDB.mk (fun _ => .error .failure) (fun _ _ => .error .failure)
          (fun _ _ => .error .failure) (fun _ => .error .failure)) 7 42 1).1
      .failure rfl).1⟩

/-- Helper: deleting a key from the in-process map makes its lookup miss. -/
theorem lookup_storeDelete (jti : String) (s : MemStore) :
    (storeDelete jti s).lookup jti = none := by
  rw [List.lookup_eq_none_iff]
  intro p hp
  rw [storeDelete, List.mem_filter] at hp
  have h1 : (p.1 != jti) = true := hp.2
  rw [bne_iff_ne] at h1
  simp only [bne_iff_ne, ne_eq]
  exact fun h => h1 h.symm

/-- Helper: a filter cannot create a key that was absent. -/
theorem lookup_filter_none (jti : String) (f : String × Nat → Bool) (s : MemStore)
    (h : s.lookup jti = none) : (s.filter f).lookup jti = none := by
  rw [List.lookup_eq_none_iff] at h ⊢
  intro p hp
  exact h p (List.mem_of_mem_filter hp)

/-- C6: `add` returns `true` on every call; a successful external write
short-circuits leaving the in-process map untouched, while an absent client
or a raising write records `(jti, now + ttl)` in the in-process map (default
ttl 86400s = 24h) — the fresh entry is then readable whenever its ttl is
positive — and still returns `true`. -/
theorem add_always_succeeds (redis : AddOutcome) (now : Nat) (store : MemStore)
    (jti : String) (expires_delta : Option Nat) :
    (TokenBlacklist.add redis now store jti expires_delta).1 = true
    ∧ (redis = .setexOk →
        TokenBlacklist.add redis now store jti expires_delta = (true, store))
    ∧ (redis.memoryPath = true →
        (TokenBlacklist.add redis now store jti expires_delta).2
          = _cleanup_expired now
              ((jti, now + expires_delta.getD 86400) :: storeDelete jti store)
        ∧ (0 < expires_delta.getD 86400 →
            ((TokenBlacklist.add redis now store jti expires_delta).2).lookup jti
              = some (now + expires_delta.getD 86400))) := by
  have hcons : ∀ h : 0 < expires_delta.getD 86400,
      _cleanup_expired now ((jti, now + expires_delta.getD 86400) :: storeDelete jti store)
        = (jti, now + expires_delta.getD 86400)
            :: _cleanup_expired now (storeDelete jti store) := by
    intro h
    unfold _cleanup_expired
    rw [List.filter_cons_of_pos]
    simp
    omega
  cases redis with
  | setexOk => exact ⟨rfl, fun _ => rfl, by simp [AddOutcome.memoryPath]⟩
  | noClient =>
    refine ⟨rfl, by simp, fun _ => ⟨rfl, fun h => ?_⟩⟩
    show (_cleanup_expired now ((jti, now + expires_delta.getD 86400)
        :: storeDelete jti store)).lookup jti = _
    rw [hcons h, List.lookup_cons_self]
  | setexErr =>
    refine ⟨rfl, by simp, fun _ => ⟨rfl, fun h => ?_⟩⟩
    show (_cleanup_expired now ((jti, now + expires_delta.getD 86400)
        :: storeDelete jti store)).lookup jti = _
    rw [hcons h, List.lookup_cons_self]

/-- Witness for C6: with no external client, adding to the empty map with
the default ttl records expiry 86400 and answers `true`. -/
theorem add_always_succeeds_witness :
    (AddOutcome.noClient.memoryPath = true ∧ 0 < (none : Option Nat).getD 86400)
    ∧ ((TokenBlacklist.add .noClient 0 [] "tok" none).2).lookup "tok" = some 86400 :=
  ⟨⟨rfl, by decide⟩,
    (((add_always_succeeds .noClient 0 [] "tok" none).2.2 rfl).2 (by decide))⟩

/-- Helper: on the in-process path, `add` leaves the map as record followed
by cleanup. -/
theorem add_memory_store (ra : AddOutcome) (now : Nat) (store : MemStore)
    (jti : String) (ttl : Nat) (h : ra.memoryPath = true) :
    (TokenBlacklist.add ra now store jti (some ttl)).2
      = _cleanup_expired now ((jti, now + ttl) :: storeDelete jti store) := by
  cases ra with
  | setexOk => simp [AddOutcome.memoryPath] at h
  | noClient => rfl
  | setexErr => rfl

/-- Helper: on the in-process path, `is_blacklisted` is the memory-map
check. -/
theorem is_blacklisted_memory (rc : ReadOutcome) (now : Nat) (s : MemStore)
    (jti : String) (h : rc.memoryPath = true) :
    TokenBlacklist.is_blacklisted rc now s jti
      = match s.lookup jti with
        | some expires_at =>
          if now < expires_at then (true, s) else (false, storeDelete jti s)
        | none => (false, s) := by
  cases rc with
  | found b => simp [ReadOutcome.memoryPath] at h
  | noClient => rfl
  | readErr => rfl

/-- C7: for the in-process backend, after `add jti ttl` at time `now`, a
revocation check at any later time `t` answers `true` strictly before the
recorded expiry `now + ttl` (leaving the map untouched) and `false` at or
after it; an expired entry encountered by a read is deleted from the map at
that read and treated as a miss. -/
theorem revocation_respects_expiry (ra : AddOutcome) (rc : ReadOutcome)
    (now t ttl : Nat) (store : MemStore) (jti : String)
    (hra : ra.memoryPath = true) (hrc : rc.memoryPath = true) (hnt : now ≤ t) :
    (t < now + ttl →
        TokenBlacklist.is_blacklisted rc t
            (TokenBlacklist.add ra now store jti (some ttl)).2 jti
          = (true, (TokenBlacklist.add ra now store jti (some ttl)).2))
    ∧ (now + ttl ≤ t →
        (TokenBlacklist.is_blacklisted rc t
            (TokenBlacklist.add ra now store jti (some ttl)).2 jti).1 = false)
    ∧ (∀ s2 e, s2.lookup jti = some e → e ≤ t →
        TokenBlacklist.is_blacklisted rc t s2 jti = (false, storeDelete jti s2)) := by
  have hs := add_memory_store ra now store jti ttl hra
  refine ⟨?_, ?_, ?_⟩
  · intro hlt
    have hkeep : _cleanup_expired now ((jti, now + ttl) :: storeDelete jti store)
        = (jti, now + ttl) :: _cleanup_expired now (storeDelete jti store) := by
      unfold _cleanup_expired
      rw [List.filter_cons_of_pos]
      simp
      omega
    rw [hs, hkeep, is_blacklisted_memory rc t _ jti hrc, List.lookup_cons_self]
    simp [hlt]
  · intro hge
    by_cases httl : 0 < ttl
    · have hkeep : _cleanup_expired now ((jti, now + ttl) :: storeDelete jti store)
          = (jti, now + ttl) :: _cleanup_expired now (storeDelete jti store) := by
        unfold _cleanup_expired
        rw [List.filter_cons_of_pos]
        simp
        omega
      rw [hs, hkeep, is_blacklisted_memory rc t _ jti hrc, List.lookup_cons_self]
      have hnl : ¬ t < now + ttl := by omega
      simp [hnl]
    · have hdrop : _cleanup_expired now ((jti, now + ttl) :: storeDelete jti store)
          = _cleanup_expired now (storeDelete jti store) := by
        unfold _cleanup_expired
        rw [List.filter_cons_of_neg]
        simp
        omega
      rw [hs, hdrop, is_blacklisted_memory rc t _ jti hrc]
      unfold _cleanup_expired
      rw [lookup_filter_none jti _ _ (lookup_storeDelete jti store)]
  · intro s2 e hl he
    rw [is_blacklisted_memory rc t s2 jti hrc, hl]
    have hnl : ¬ t < e := by omega
    simp [hnl]

/-- Witness for C7: add "tok" at time 0 with ttl 2 through the in-process
path; a read at time 1 answers `true` with the map untouched. -/
theorem revocation_respects_expiry_witness :
    (AddOutcome.noClient.memoryPath = true ∧ ReadOutcome.noClient.memoryPath = true
      ∧ (0 : Nat) ≤ 1 ∧ (1 : Nat) < 0 + 2)
    ∧ TokenBlacklist.is_blacklisted .noClient 1
        (TokenBlacklist.add .noClient 0 [] "tok" (some 2)).2 "tok"
      = (true, (TokenBlacklist.add .noClient 0 [] "tok" (some 2)).2) :=
  ⟨⟨rfl, rfl, by decide, by decide⟩,
    (revocation_respects_expiry .noClient .noClient 0 1 2 [] "tok"
      rfl rfl (by decide)).1 (by decide)⟩

/-- C8 counterexample: at the concrete input `now = 10`, map `[("old", 5)]`
(an entry whose expiry 5 has already passed), a call to `add` whose external
write succeeds returns with the stale entry still in the in-process map, so
cleanup did not run on this `add`. -/
theorem add_external_success_skips_cleanup :
    TokenBlacklist.add .setexOk 10 [("old", 5)] "tok" none = (true, [("old", 5)])
    ∧ ("old", 5) ∈ (TokenBlacklist.add .setexOk 10 [("old", 5)] "tok" none).2
    ∧ 5 ≤ 10 :=
  ⟨rfl, by decide, by decide⟩

/-- C8 (amended): cleanup runs on every `add` that falls through to the
in-process map — after such an add the map holds no entry whose expiry is at
or before `now` — while an `add` whose external write succeeds returns
immediately, leaving the in-process map untouched. -/
theorem add_memory_path_cleans_expired (redis : AddOutcome) (now : Nat)
    (store : MemStore) (jti : String) (expires_delta : Option Nat) :
    (redis.memoryPath = true →
        ∀ e ∈ (TokenBlacklist.add redis now store jti expires_delta).2, now < e.2)
    ∧ (redis = .setexOk →
        (TokenBlacklist.add redis now store jti expires_delta).2 = store) := by
  constructor
  · intro h e he
    have hmem : e ∈ _cleanup_expired now
        ((jti, now + expires_delta.getD 86400) :: storeDelete jti store) := by
      cases redis with
      | setexOk => simp [AddOutcome.memoryPath] at h
      | noClient => exact he
      | setexErr => exact he
    rw [_cleanup_expired, List.mem_filter] at hmem
    have := hmem.2
    simp at this
    omega
  · intro h
    subst h
    rfl

/-- Witness for C8's amended statement: an in-process add at time 10 over
the stale map `[("old", 5)]` leaves only entries that expire after 10. -/
theorem add_memory_path_cleans_expired_witness :
    (AddOutcome.noClient.memoryPath = true
      ∧ ("tok", 86410) ∈ (TokenBlacklist.add .noClient 10 [("old", 5)] "tok" none).2)
    ∧ (10 : Nat) < 86410 :=
  ⟨⟨rfl, by decide⟩,
    (add_memory_path_cleans_expired .noClient 10 [("old", 5)] "tok" none).1
      rfl ("tok", 86410) (by decide)⟩

/-- C10: a JWT payload with no `"jti"` key is treated as not revoked —
`check_if_token_revoked` answers `false` without consulting the revocation
store, whatever its contents, and leaves the in-process map untouched. -/
theorem missing_jti_not_revoked (redis : ReadOutcome) (now : Nat)
    (store : MemStore) (payload : List (String × String))
    (h : payload.lookup "jti" = none) :
    check_if_token_revoked redis now store payload = (false, store) := by
  unfold check_if_token_revoked
  rw [h]

/-- Witness for C10: the empty payload has no jti, so the check answers
`false` over an arbitrary concrete store. -/
theorem missing_jti_not_revoked_witness :
    (([] : List (String × String)).lookup "jti" = none)
    ∧ check_if_token_revoked .noClient 3 [("tok", 9)] [] = (false, [("tok", 9)]) :=
  ⟨rfl, missing_jti_not_revoked .noClient 3 [("tok", 9)] [] rfl⟩

end NexusTask
